import Mathlib

/-!
# VictoriaMetrics example client (`main.go`)

A shallow embedding of the three procedures of `main.go`:

* `writeToVictoriaMetrics` builds one line-protocol record and posts it;
* `queryFromVictoriaMetrics` builds a range query, sends it and decodes the
  JSON answer into `LocationData` samples;
* `main` calls the writer and, when it succeeded, the reader.

Go values are modelled as follows.  `int64`/`int` are `Int` (the only
arithmetic that can leave the 64-bit range, the subtractions in `main`, is
wrapped explicitly), `string` is `String`, `error` is an `Option String` /
`Except String _` carrying the message, and `float64` is the type `Float64`
below, an exact model of IEEE-754 binary64 values.  The network and the JSON
decoder are not part of the program: they are the fields of `World`.
-/

namespace VictoriaMetricsExample

/-! ## float64 -/

/-- An IEEE-754 binary64 value: `finite neg mant exp` is `(-1)^neg * mant * 2^exp`.
The values a Go `float64` can hold are the ones in canonical form
(`Float64.Canonical`), the infinities and NaN. -/
inductive Float64 where
  | finite (neg : Bool) (mant : Nat) (exp : Int)
  | inf (neg : Bool)
  | nan
  deriving DecidableEq

namespace Float64

/-- Canonical binary64 encodings: a 53-bit significand, the exponent range of the
format, and subnormals (and zero) at the least exponent. -/
def Canonical : Float64 → Prop
  | finite _ m e => m < 2 ^ 53 ∧ -1074 ≤ e ∧ e ≤ 971 ∧ (m < 2 ^ 52 → e = -1074)
  | _ => True

/-- Whether the value is a number (neither an infinity nor NaN). -/
def isFinite : Float64 → Bool
  | finite _ _ _ => true
  | _ => false

/-- Positive zero, the zero value of `float64`. -/
def zero : Float64 := finite false 0 (-1074)

/-- Number of binary digits of `n` (`fuel` bounds the count). -/
def bitLenAux : Nat → Nat → Nat
  | 0, _ => 0
  | fuel + 1, n => if n = 0 then 0 else bitLenAux fuel (n / 2) + 1

/-- Number of binary digits of `n`: `2^(bitLen n - 1) ≤ n < 2^(bitLen n)` for `0 < n`. -/
def bitLen (n : Nat) : Nat := bitLenAux n n

/-- Round-half-to-even quotient of `n / d`. -/
def divRoundEven (n d : Nat) : Nat :=
  let q := n / d
  let r := n % d
  if 2 * r > d ∨ (2 * r = d ∧ q % 2 = 1) then q + 1 else q

/-- The quotient `num / den` scaled by `2^(-e)`, as numerator and denominator. -/
def scaled (num den : Nat) (e : Int) : Nat × Nat :=
  if 0 ≤ e then (num, den * 2 ^ e.toNat) else (num * 2 ^ (-e).toNat, den)

/-- The binary64 value nearest to `(-1)^neg * num / den` (ties to even), an
infinity when the rounded magnitude exceeds the format: the IEEE-754 rounding
every float64 operation and every decimal-to-float64 conversion applies. -/
def roundRat (neg : Bool) (num den : Nat) : Float64 :=
  if num = 0 ∨ den = 0 then finite neg 0 (-1074)
  else
    -- 2^lo < num/den < 2^(lo+2)
    let lo : Int := (bitLen num : Int) - (bitLen den : Int) - 1
    let e1 : Int := max (lo - 52) (-1074)
    let s1 := scaled num den e1
    let e2 : Int := if s1.1 / s1.2 ≥ 2 ^ 53 then e1 + 1 else e1
    let s2 := scaled num den e2
    let q := divRoundEven s2.1 s2.2
    let (m, e) := if q = 2 ^ 53 then (2 ^ 52, e2 + 1) else (q, e2)
    if e > 971 then inf neg else finite neg m e

/-- The float64 an integer constant or value converts to. -/
def ofNat (n : Nat) : Float64 := roundRat false n 1

/-- The float64 closest to the decimal constant `digits * 10^(-scale)`, as the Go
compiler converts an untyped constant such as `111.11`. -/
def ofDecimal (digits scale : Nat) : Float64 := roundRat false digits (10 ^ scale)

/-- IEEE-754 multiplication (Go's `*` on float64). -/
def mul : Float64 → Float64 → Float64
  | nan, _ => nan
  | _, nan => nan
  | inf s, inf t => inf (xor s t)
  | inf s, finite t m _ => if m = 0 then nan else inf (xor s t)
  | finite s m _, inf t => if m = 0 then nan else inf (xor s t)
  | finite s m e, finite t n f =>
      let p := scaled (m * n) 1 (-(e + f))
      roundRat (xor s t) p.1 p.2

/-- The integer part of a finite value, rounded toward zero. -/
def trunc : Float64 → Int
  | finite neg m e =>
      let a : Nat := if 0 ≤ e then m * 2 ^ e.toNat else m / 2 ^ (-e).toNat
      if neg then -(a : Int) else (a : Int)
  | _ => 0

/-- Whether the conversion `int64(x)` is defined by the language: `x` is a number
whose integer part fits in 64 bits. -/
def fitsInt64 (x : Float64) : Bool :=
  x.isFinite && decide (-(2 : Int) ^ 63 ≤ x.trunc) && decide (x.trunc < (2 : Int) ^ 63)

/-- Go's conversion `int64(x)`: truncation toward zero when the result is
representable; otherwise the result is implementation-dependent, given by `impl`. -/
def toInt64 (impl : Float64 → Int) (x : Float64) : Int :=
  if x.fitsInt64 then x.trunc else impl x

end Float64

/-! ## fmt verbs -/

/-- The character of a decimal digit. -/
def digitChar (d : Nat) : Char := Char.ofNat (48 + d % 10)

/-- Decimal digits of `n`, most significant first (`fuel` bounds the digit count). -/
def natDigits : Nat → Nat → List Char
  | 0, _ => []
  | fuel + 1, n => if n < 10 then [digitChar n] else natDigits fuel (n / 10) ++ [digitChar n]

/-- Decimal representation of a natural number. -/
def formatNat (n : Nat) : String := String.mk (natDigits (n + 1) n)

/-- The verb `%d` applied to an integer. -/
def formatInt (n : Int) : String :=
  if n < 0 then "-" ++ formatNat n.natAbs else formatNat n.toNat

/-- The number a text of decimal digits spells. -/
def digitsValue (l : List Char) : Nat := l.foldl (fun n c => n * 10 + (c.toNat - 48)) 0

/-- The six digits printed after the decimal point. -/
def fracDigits (r : Nat) : List Char :=
  let ds := natDigits 6 (r % 10 ^ 6)
  List.replicate (6 - ds.length) '0' ++ ds

/-- The verb `%f` applied to a float64: the exact value rounded half-to-even to six
decimals, printed as sign, integer part, point and six digits; NaN and the
infinities print as `NaN`, `+Inf` and `-Inf`. -/
def formatFloat : Float64 → String
  | .nan => "NaN"
  | .inf neg => if neg then "-Inf" else "+Inf"
  | .finite neg m e =>
      let p := Float64.scaled (m * 10 ^ 6) 1 (-e)
      let n := Float64.divRoundEven p.1 p.2
      (if neg then "-" else "") ++ formatNat (n / 10 ^ 6) ++ "." ++ String.mk (fracDigits n)

/-- A text without its leading minus sign, if it has one. -/
def stripMinus : List Char → List Char
  | [] => []
  | c :: rest => if c = '-' then rest else c :: rest

/-- Whether a text is a fixed-point decimal with exactly six fractional digits: an
optional minus sign, at least one digit, a point, six digits, and nothing else
(so no exponent part). -/
def isFixedPoint6 (s : String) : Bool :=
  let cs := stripMinus s.data
  let ip := cs.takeWhile Char.isDigit
  !ip.isEmpty && match cs.dropWhile Char.isDigit with
    | c :: fr => c == '.' && fr.length == 6 && fr.all Char.isDigit
    | [] => false

/-- An operand of `fmt.Sprintf`, with its Go type. -/
inductive Arg where
  | str (s : String)
  | int (n : Int)
  | float (x : Float64)

/-- One verb applied to one operand, for the verb and operand type pairs the
program uses (`%s` string, `%d` integer, `%f` float64); `none` for any other pair. -/
def formatVerb (verb : Char) (a : Arg) : Option String :=
  match a with
  | .str s => if verb = 's' then some s else none
  | .int n => if verb = 'd' then some (formatInt n) else none
  | .float x => if verb = 'f' then some (formatFloat x) else none

/-- The loop of `fmt.Sprintf` over the format: text is copied, `%` followed by a verb
consumes the next operand.  The result is `none` outside the fragment the program
uses (flags, a missing or extra operand, a verb that does not fit its operand). -/
def sprintfAux : List Char → List Arg → List Char → Option String
  | [], args, out => if args.isEmpty then some (String.mk out) else none
  | [c], args, out => if c = '%' then none else sprintfAux [] args (out ++ [c])
  | c :: verb :: rest, args, out =>
      if c = '%' then
        match args with
        | a :: args' =>
            match formatVerb verb a with
            | some s => sprintfAux rest args' (out ++ s.data)
            | none => none
        | [] => none
      else sprintfAux (verb :: rest) args (out ++ [c])

/-- The model of `fmt.Sprintf(format, args...)`. -/
def Sprintf (format : String) (args : List Arg) : Option String :=
  sprintfAux format.data args []

/-! ## The HTTP exchange and the JSON answer -/

/-- The parts of an `http.Request` the program sets. -/
structure Request where
  Method : String
  URL : String
  RawQuery : String
  Header : List (String × String)
  Body : String
  deriving DecidableEq

/-- The parts of an `http.Response` the program reads: the status code and what
`io.ReadAll(resp.Body)` returns (the bytes read, and the read error if any). -/
structure Response where
  StatusCode : Int
  Body : String
  ReadErr : Option String

/-- A value `encoding/json` stores in an `interface{}`: `nil`, `bool`, `float64`,
`string`, `[]interface{}` or `map[string]interface{}`. -/
inductive JSONValue where
  | null
  | bool (b : Bool)
  | number (x : Float64)
  | string (s : String)
  | array (xs : List JSONValue)
  | object (kvs : List (String × JSONValue))

/-- One element of `result.Data.Result`: the label map and the rows of values. -/
structure Series where
  Metric : List (String × String)
  Values : List (List JSONValue)

/-- The anonymous struct `result` the answer is decoded into. -/
structure QueryResult where
  Status : String
  Result : List Series

/-- LocationData is the sample type returned by the reader (`TimeStamp` in milliseconds). -/
structure LocationData where
  UserID : String
  W : Float64
  J : Float64
  TimeStamp : Int
  deriving DecidableEq

/-- What `main.go` refers to and does not define.

* `Do` is `(*http.Client).Do`: the response, or the transport error.
* `Unmarshal` is `json.Unmarshal(body, &result)`: the decoded struct, or the error.
* `Sscanf` is `fmt.Sscanf(s, "%f", &x)`: the value stored in `x`, or `none` when the
  call reports an error, in which case `x` is left as it was.
* `int64Impl` is the result of `int64(x)` for an `x` that has no 64-bit integer part,
  which the language leaves to the implementation.
* `latitude` is the identifier of that name in the body of
  `queryFromVictoriaMetrics`, which that function does not declare. -/
structure World where
  Do : Request → Except String Response
  Unmarshal : String → Except String QueryResult
  Sscanf : String → Option Float64
  int64Impl : Float64 → Int
  latitude : Float64

/-! ## writeToVictoriaMetrics -/

/-- The line-protocol record of `writeToVictoriaMetrics` (the variable `line`). -/
def writeLine (userID : String) (eventTS _collectTS : Int) (longitude latitude : Float64) :
    String :=
  (Sprintf "t_zbs,user_id=%s,u_ts=%d j=%f,w=%f\n"
    [.str userID, .int eventTS, .float longitude, .float latitude]).getD ""

/-- The request `writeToVictoriaMetrics` hands to the HTTP client. -/
def writeRequest (userID : String) (eventTS collectTS : Int) (longitude latitude : Float64) :
    Request :=
  { Method := "POST"
    URL := "http://localhost:8428/api/v2/write"
    RawQuery := ""
    Header := [("Content-Type", "text/plain")]
    Body := writeLine userID eventTS collectTS longitude latitude }

/-- The procedure `writeToVictoriaMetrics`: `none` is the `nil` error.
(`http.NewRequest` cannot fail on the constant method and URL; the `fmt.Println`
calls do not influence the result.) -/
def writeToVictoriaMetrics (w : World) (userID : String) (eventTS collectTS : Int)
    (longitude latitude : Float64) : Option String :=
  match w.Do (writeRequest userID eventTS collectTS longitude latitude) with
  | .error err => some err
  | .ok resp =>
      if resp.StatusCode ≠ 204 then
        some ((Sprintf "write failed: %s" [.str resp.Body]).getD "")
      else none


/-! ## net/url: query parameters -/

/-- The UTF-8 bytes of a character. -/
def utf8Bytes (c : Char) : List Nat :=
  let n := c.toNat
  if n < 0x80 then [n]
  else if n < 0x800 then [0xC0 + n / 64, 0x80 + n % 64]
  else if n < 0x10000 then [0xE0 + n / 4096, 0x80 + n / 64 % 64, 0x80 + n % 64]
  else [0xF0 + n / 262144, 0x80 + n / 4096 % 64, 0x80 + n / 64 % 64, 0x80 + n % 64]

/-- The bytes of a string. -/
def stringBytes (s : String) : List Nat := s.data.flatMap utf8Bytes

/-- The function `shouldEscape` of net/url in query-component mode: everything but
letters, digits and `-`, `_`, `.`, `~` is escaped. -/
def shouldEscape (b : Nat) : Bool :=
  if (97 ≤ b ∧ b ≤ 122) ∨ (65 ≤ b ∧ b ≤ 90) ∨ (48 ≤ b ∧ b ≤ 57) then false
  else if b = 45 ∨ b = 95 ∨ b = 46 ∨ b = 126 then false
  else true

/-- An upper-case hexadecimal digit. -/
def upperHex (d : Nat) : Char := "0123456789ABCDEF".data.getD d '0'

/-- One byte as `url.QueryEscape` writes it: a space becomes `+`, an escaped byte
becomes `%XX`, any other byte stays. -/
def escapeByte (b : Nat) : List Char :=
  if b = 32 then ['+']
  else if shouldEscape b then ['%', upperHex (b / 16), upperHex (b % 16)]
  else [Char.ofNat b]

/-- The function `url.QueryEscape`. -/
def QueryEscape (s : String) : String := String.mk ((stringBytes s).flatMap escapeByte)

/-- A character `url.QueryEscape` leaves unchanged. -/
def Plain (c : Char) : Prop := (utf8Bytes c).flatMap escapeByte = [c]

/-- Go's order on strings (bytewise lexicographic), on the byte lists. -/
def bytesLE : List Nat → List Nat → Bool
  | [], _ => true
  | _ :: _, [] => false
  | a :: as, b :: bs => decide (a < b) || (a == b && bytesLE as bs)

/-- The type `url.Values`, a `map[string][]string`: the keys of `entries` are distinct. -/
structure Values where
  entries : List (String × List String)

namespace Values

/-- The empty map `url.Values{}`. -/
def empty : Values := ⟨[]⟩

/-- Append `value` to the values of `key` in the entry list. -/
def addEntry : List (String × List String) → String → String → List (String × List String)
  | [], key, value => [(key, [value])]
  | (k, vs) :: rest, key, value =>
      if k = key then (k, vs ++ [value]) :: rest else (k, vs) :: addEntry rest key value

/-- The method `Values.Add`: `v[key] = append(v[key], value)`. -/
def Add (v : Values) (key value : String) : Values := ⟨addEntry v.entries key value⟩

/-- The method `Values.Get`: the first value of `key`, or the empty string. -/
def Get (v : Values) (key : String) : String :=
  match v.entries.lookup key with
  | some (x :: _) => x
  | _ => ""

/-- Insertion of an entry into a list sorted by key. -/
def insertEntry (e : String × List String) :
    List (String × List String) → List (String × List String)
  | [] => [e]
  | x :: xs =>
      if bytesLE (stringBytes e.1) (stringBytes x.1) then e :: x :: xs
      else x :: insertEntry e xs

/-- The entries sorted by key. -/
def sorted (v : Values) : List (String × List String) := v.entries.foldr insertEntry []

/-- The method `Values.Encode`: `key=value` pairs, both escaped, sorted by key and
joined by `&`. -/
def Encode (v : Values) : String :=
  "&".intercalate
    (v.sorted.flatMap fun e => e.2.map fun x => QueryEscape e.1 ++ "=" ++ QueryEscape x)

end Values

/-! ## queryFromVictoriaMetrics -/

/-- The query parameters `params` of `queryFromVictoriaMetrics`. `Int.tdiv` is Go's
integer division, which truncates toward zero. -/
def queryParams (userID : String) (startMs endMs : Int) (metric : String) (stepSec : Int) :
    Values :=
  let query := (Sprintf "%s\x7buser_id=\"%s\"\x7d" [.str metric, .str userID]).getD ""
  let params := Values.empty
  let params := params.Add "query" query
  let params := params.Add "start" ((Sprintf "%d" [.int (startMs.tdiv 1000)]).getD "")
  let params := params.Add "end" ((Sprintf "%d" [.int (endMs.tdiv 1000)]).getD "")
  let params := params.Add "step" ((Sprintf "%d" [.int stepSec]).getD "")
  params

/-- The request `queryFromVictoriaMetrics` hands to the HTTP client. -/
def queryRequest (userID : String) (startMs endMs : Int) (metric : String) (stepSec : Int) :
    Request :=
  { Method := "GET"
    URL := "http://localhost:8428/api/v1/query_range"
    RawQuery := (queryParams userID startMs endMs metric stepSec).Encode
    Header := []
    Body := "" }

/-- The type assertion `v.(float64)` in its two-result form. -/
def assertFloat64 : JSONValue → Float64 × Bool
  | .number x => (x, true)
  | _ => (Float64.zero, false)

/-- The type assertion `v.(string)` in its two-result form. -/
def assertString : JSONValue → String × Bool
  | .string s => (s, true)
  | _ => ("", false)

/-- The map index expression `m[key]` on a `map[string]string`: the zero value `""`
for an absent key. -/
def mapIndex (m : List (String × String)) (key : String) : String :=
  (m.lookup key).getD ""

/-- The body of the inner loop of `queryFromVictoriaMetrics` for one row `v`:
`data` after the iteration. -/
def appendRow (w : World) (userID : String) (data : List LocationData)
    (v : List JSONValue) : List LocationData :=
  if v.length ≠ 2 then data
  else
    let (timestampFloat, ok1) := assertFloat64 (v.getD 0 .null)
    let (valueStr, ok2) := assertString (v.getD 1 .null)
    if !ok1 || !ok2 then data
    else
      let longitude := Float64.zero
      let longitude := (w.Sscanf valueStr).getD longitude
      data ++ [{ UserID := userID
                 J := longitude
                 W := w.latitude
                 TimeStamp := Float64.toInt64 w.int64Impl
                   (timestampFloat.mul (Float64.ofNat 1000)) }]

/-- The body of the outer loop for one series. -/
def appendSeries (w : World) (data : List LocationData) (series : Series) :
    List LocationData :=
  let userID := mapIndex series.Metric "user_id"
  series.Values.foldl (appendRow w userID) data

/-- The extraction loops of `queryFromVictoriaMetrics` over the decoded answer.  The
argument `userID` of the procedure is in scope and is shadowed inside the loop. -/
def extractData (w : World) (_userID : String) (result : QueryResult) : List LocationData :=
  result.Result.foldl (appendSeries w) []

/-- The procedure `queryFromVictoriaMetrics`.  (`http.NewRequest` cannot fail on the
constant method and URL; the `fmt.Println` calls do not influence the result.) -/
def queryFromVictoriaMetrics (w : World) (userID : String) (startMs endMs : Int)
    (metric : String) (stepSec : Int) : Except String (List LocationData) :=
  match w.Do (queryRequest userID startMs endMs metric stepSec) with
  | .error err => .error err
  | .ok resp =>
      match resp.ReadErr with
      | some err => .error err
      | none =>
          match w.Unmarshal resp.Body with
          | .error err => .error err
          | .ok result => .ok (extractData w userID result)

/-- The samples a row contributes, as a specification of `appendRow`: one sample for
a pair of a number and a string, none for any other row. -/
def rowSamples (w : World) (userID : String) : List JSONValue → List LocationData
  | [.number t, .string s] =>
      [{ UserID := userID
         J := (w.Sscanf s).getD Float64.zero
         W := w.latitude
         TimeStamp := Float64.toInt64 w.int64Impl (t.mul (Float64.ofNat 1000)) }]
  | _ => []

/-- The samples of a series, in the order of its rows. -/
def seriesSamples (w : World) (series : Series) : List LocationData :=
  series.Values.flatMap (rowSamples w (mapIndex series.Metric "user_id"))

/-- A row the extraction loop skips: not two elements, or the first is not a
number, or the second is not a string. -/
def malformedRow (v : List JSONValue) : Bool :=
  v.length != 2 || !(assertFloat64 (v.getD 0 .null)).2 || !(assertString (v.getD 1 .null)).2

/-- The world answers the request `req` with a readable body that decodes to `result`. -/
def Answers (w : World) (req : Request) (result : QueryResult) : Prop :=
  ∃ resp, w.Do req = .ok resp ∧ resp.ReadErr = none ∧ w.Unmarshal resp.Body = .ok result

/-- Two worlds with the same library behaviour and the same `latitude`: they may
differ in what the network and the decoder deliver. -/
def SameLibrary (w w' : World) : Prop :=
  w'.Sscanf = w.Sscanf ∧ w'.int64Impl = w.int64Impl ∧ w'.latitude = w.latitude

/-! ## main -/

/-- Two's-complement wrap-around of 64-bit integer arithmetic. -/
def wrapInt64 (n : Int) : Int := (n + 2 ^ 63) % 2 ^ 64 - 2 ^ 63

/-- A call `main` makes, with its arguments. -/
inductive Call where
  | write (userID : String) (eventTS collectTS : Int) (longitude latitude : Float64)
  | query (userID : String) (startMs endMs : Int) (metric : String) (stepSec : Int)
  deriving DecidableEq

/-- How `main` ends: by returning, or in `log.Fatalf` (which exits the process). -/
inductive Exit where
  | returned
  | fatal (err : String)
  deriving DecidableEq

/-- The procedure `main` in state-passing form.  The state `σ` is whatever the
procedures act on (the network, the standard output); `println` is `fmt.Println`
with its operands, `writer` and `reader` are the two procedures `main` calls, each
returning its result and the state it leaves.  `now` is `now.UnixMilli()`, the
current time in milliseconds, read at both places from the same `now`.  The result
is the way `main` ends and the final state. -/
def main {σ : Type} (now : Int)
    (println : List String → σ → σ)
    (writer : String → Int → Int → Float64 → Float64 → σ → Option String × σ)
    (reader : String → Int → Int → String → Int → σ →
      Except String (List LocationData) × σ)
    (s : σ) : Exit × σ :=
  let userID := "333"
  let collectTS := now
  let eventTS := wrapInt64 (collectTS - 10000)
  let longitude := Float64.ofDecimal 11111 2
  let latitude := Float64.ofDecimal 11111 2
  let s := println ["🧪 当前版本: 测试111.11版本"] s
  let (err, s) := writer userID eventTS collectTS longitude latitude s
  match err with
  | some err => (.returned, println ["❌ 写入失败:", err] s)
  | none =>
      let s := println ["✅ 数据写入成功"] s
      let endMs := now
      let startMs := wrapInt64 (endMs - 10800 * 1000)
      let step := 8640000
      let (res, s) := reader userID startMs endMs "j" step s
      match res with
      | .error err => (.fatal err, s)
      | .ok data =>
          if data.length = 0 then (.returned, println ["没有查询到数据。"] s)
          else (.returned, s)

/-- A writer that returns what `outcome` says and records its call in the state. -/
def logWriter (outcome : String → Int → Int → Float64 → Float64 → Option String)
    (userID : String) (eventTS collectTS : Int) (longitude latitude : Float64)
    (calls : List Call) : Option String × List Call :=
  (outcome userID eventTS collectTS longitude latitude,
    calls ++ [.write userID eventTS collectTS longitude latitude])

/-- A reader that returns what `outcome` says and records its call in the state. -/
def logReader (outcome : String → Int → Int → String → Int →
      Except String (List LocationData))
    (userID : String) (startMs endMs : Int) (metric : String) (stepSec : Int)
    (calls : List Call) : Except String (List LocationData) × List Call :=
  (outcome userID startMs endMs metric stepSec,
    calls ++ [.query userID startMs endMs metric stepSec])

/-- The program: `main` with the two procedures of this file, recording the calls. -/
def program (w : World) (now : Int) : Exit × List Call :=
  main now (fun _ calls => calls) (logWriter (writeToVictoriaMetrics w))
    (logReader (queryFromVictoriaMetrics w)) []

/-! ## A model of `fmt.Sscanf(s, "%f", &x)`

The theorems on the reader hold for every `World.Sscanf`.  The function `scanFloat`
below is the behaviour of the Go library, used where a concrete world is needed: the
scanner skips blanks, takes the longest floating-point token, and converts it with
`strconv.ParseFloat`, which rounds the denoted number to the nearest float64. -/

/-- The function `isSpace` of package fmt. -/
def isSpace (c : Char) : Bool :=
  let n := c.toNat
  (0x09 ≤ n && n ≤ 0x0d) || n == 0x20 || n == 0x85 || n == 0xa0 || n == 0x1680 ||
    (0x2000 ≤ n && n ≤ 0x200a) || n == 0x2028 || n == 0x2029 || n == 0x202f ||
    n == 0x205f || n == 0x3000

/-- The method `SkipSpace` as `Sscanf` runs it: blanks are skipped, a newline is an
error (`none`). -/
def skipSpace : List Char → Option (List Char)
  | [] => some []
  | c :: rest =>
      if c = '\n' then none
      else if isSpace c then skipSpace rest
      else some (c :: rest)

/-- The scanner state: the input left and the token collected so far. -/
structure Scan where
  input : List Char
  buf : List Char

/-- The method `accept`: consume the next character if it is one of `ok`. -/
def Scan.accept (s : Scan) (ok : String) : Bool × Scan :=
  match s.input with
  | c :: rest => if ok.data.contains c then (true, ⟨rest, s.buf ++ [c]⟩) else (false, s)
  | [] => (false, s)

/-- The loop `for s.accept(ok) {}`. -/
def acceptAll (ok : String) : List Char → List Char → Scan
  | [], buf => ⟨[], buf⟩
  | c :: rest, buf =>
      if ok.data.contains c then acceptAll ok rest (buf ++ [c]) else ⟨c :: rest, buf⟩

/-- The method `floatToken`: the text of a floating-point number at the head of the
input (possibly empty, possibly not a valid number). -/
def floatToken (input : List Char) : List Char :=
  let s : Scan := ⟨input, []⟩
  -- NaN?
  let (n1, s) := s.accept "nN"
  let (n2, s) := if n1 then s.accept "aA" else (false, s)
  let (n3, s) := if n2 then s.accept "nN" else (false, s)
  if n3 then s.buf
  else
    -- leading sign?
    let (_, s) := s.accept "+-"
    -- Inf?
    let (i1, s) := s.accept "iI"
    let (i2, s) := if i1 then s.accept "nN" else (false, s)
    let (i3, s) := if i2 then s.accept "fF" else (false, s)
    if i3 then s.buf
    else
      let (z, s) := s.accept "0"
      let (x, s) := if z then s.accept "xX" else (false, s)
      let digits := if x then "0123456789aAbBcCdDeEfF_" else "0123456789_"
      let exp := if x then "pP" else "eEpP"
      -- digits?
      let s := acceptAll digits s.input s.buf
      -- decimal point and fraction?
      let (dot, s) := s.accept "."
      let s := if dot then acceptAll digits s.input s.buf else s
      -- exponent?
      let (e, s) := s.accept exp
      if e then
        let (_, s) := s.accept "+-"
        (acceptAll "0123456789_" s.input s.buf).buf
      else s.buf

/-- The value of a digit in the given base (10 or 16). -/
def digitValue (base : Nat) (c : Char) : Option Nat :=
  let n := c.toNat
  if 48 ≤ n ∧ n ≤ 57 then some (n - 48)
  else if base = 16 ∧ 97 ≤ n ∧ n ≤ 102 then some (n - 87)
  else if base = 16 ∧ 65 ≤ n ∧ n ≤ 70 then some (n - 55)
  else none

/-- What `readFloat` has read of a mantissa: the number the digits spell, how many
of them follow the point, and the flags of the loop. -/
structure Mantissa where
  digits : Nat
  fracLen : Nat
  sawdot : Bool
  sawdigits : Bool
  underscores : Bool

/-- The mantissa loop of `strconv.readFloat`: digits, underscores and one point. -/
def readMantissa (base : Nat) : List Char → Mantissa → Mantissa × List Char
  | [], m => (m, [])
  | c :: rest, m =>
      if c = '_' then readMantissa base rest { m with underscores := true }
      else if c = '.' then
        if m.sawdot then (m, c :: rest) else readMantissa base rest { m with sawdot := true }
      else
        match digitValue base c with
        | some d =>
            readMantissa base rest
              { m with sawdigits := true
                       digits := m.digits * base + d
                       fracLen := if m.sawdot then m.fracLen + 1 else m.fracLen }
        | none => (m, c :: rest)

/-- The digit loop of an exponent in `readFloat`: the value stops growing once it
has reached 10000. -/
def readExpDigits : List Char → Nat → Bool → Nat × Bool × List Char
  | [], e, u => (e, u, [])
  | c :: rest, e, u =>
      if c = '_' then readExpDigits rest e true
      else
        match digitValue 10 c with
        | some d => readExpDigits rest (if e < 10000 then e * 10 + d else e) u
        | none => (e, u, c :: rest)

/-- The exponent part of `readFloat` after the exponent character: an optional sign
and at least one digit. -/
def readExponent (s : List Char) : Option (Int × Bool × List Char) :=
  let (esign, s) : Int × List Char :=
    match s with
    | '+' :: rest => (1, rest)
    | '-' :: rest => (-1, rest)
    | _ => (1, s)
  match s with
  | c :: _ =>
      if (digitValue 10 c).isSome then
        let (e, u, rest) := readExpDigits s 0 false
        some (esign * e, u, rest)
      else none
  | [] => none

/-- The loop of `strconv.underscoreOK` (`saw` is the class of the last character:
`'0'` digit, `'_'` underscore, `'!'` other, `'^'` beginning). -/
def underscoreLoop (hex : Bool) : List Char → Char → Bool
  | [], saw => saw != '_'
  | c :: rest, saw =>
      if (digitValue (if hex then 16 else 10) c).isSome then underscoreLoop hex rest '0'
      else if c = '_' then
        if saw != '0' then false else underscoreLoop hex rest '_'
      else if saw == '_' then false
      else underscoreLoop hex rest '!'

/-- The function `strconv.underscoreOK`: underscores only between digits, or between
a base prefix and a digit. -/
def underscoreOK (s : List Char) : Bool :=
  let s := match s with
    | '-' :: rest => rest
    | '+' :: rest => rest
    | _ => s
  match s with
  | '0' :: p :: rest =>
      if p = 'b' ∨ p = 'B' ∨ p = 'o' ∨ p = 'O' ∨ p = 'x' ∨ p = 'X' then
        underscoreLoop (p = 'x' ∨ p = 'X') rest '0'
      else underscoreLoop false s '^'
  | _ => underscoreLoop false s '^'

/-- Length of the common prefix of `s` and the lower-case text `t`, ignoring case. -/
def commonPrefixLenIgnoreCase : List Char → List Char → Nat
  | c :: s, d :: t =>
      let c := if 65 ≤ c.toNat ∧ c.toNat ≤ 90 then Char.ofNat (c.toNat + 32) else c
      if c = d then commonPrefixLenIgnoreCase s t + 1 else 0
  | _, _ => 0

/-- The function `strconv.special`: a signed infinity or NaN at the head of `s`, with
the number of characters it takes. -/
def special (s : List Char) : Option (Float64 × Nat) :=
  let inf (neg : Bool) (nsign : Nat) (s : List Char) : Option (Float64 × Nat) :=
    let n := commonPrefixLenIgnoreCase s "infinity".data
    let n := if 3 < n ∧ n < 8 then 3 else n
    if n = 3 ∨ n = 8 then some (Float64.inf neg, nsign + n) else none
  match s with
  | '+' :: rest => inf false 1 rest
  | '-' :: rest => inf true 1 rest
  | 'i' :: _ => inf false 0 s
  | 'I' :: _ => inf false 0 s
  | c :: _ =>
      if (c = 'n' ∨ c = 'N') ∧ commonPrefixLenIgnoreCase s "nan".data = 3 then
        some (Float64.nan, 3)
      else none
  | [] => none

/-- The function `strconv.ParseFloat(s, 64)`: `none` for a syntax error and for a
number too large for float64; otherwise the float64 nearest to the number. -/
def parseFloat (s : List Char) : Option Float64 :=
  match special s with
  | some (f, n) => if n = s.length then some f else none
  | none =>
      let (neg, t) : Bool × List Char :=
        match s with
        | '+' :: rest => (false, rest)
        | '-' :: rest => (true, rest)
        | _ => (false, s)
      let (hex, t) : Bool × List Char :=
        match t with
        | '0' :: x :: d :: rest => if x = 'x' ∨ x = 'X' then (true, d :: rest) else (false, t)
        | _ => (false, t)
      let (m, t) := readMantissa (if hex then 16 else 10) t ⟨0, 0, false, false, false⟩
      if !m.sawdigits then none
      else
        let expChar (c : Char) : Bool :=
          if hex then c = 'p' ∨ c = 'P' else c = 'e' ∨ c = 'E'
        let tail : Option (Int × Bool × List Char) :=
          match t with
          | c :: rest =>
              if expChar c then readExponent rest
              else if hex then none else some (0, false, t)
          | [] => if hex then none else some (0, false, [])
        match tail with
        | none => none
        | some (e, u, rest) =>
            if !rest.isEmpty then none
            else if (m.underscores || u) && !underscoreOK s then none
            else
              let p : Nat × Nat :=
                if hex then Float64.scaled m.digits 1 (4 * (m.fracLen : Int) - e)
                else if (m.fracLen : Int) ≤ e then (m.digits * 10 ^ (e - m.fracLen).toNat, 1)
                else (m.digits, 10 ^ ((m.fracLen : Int) - e).toNat)
              match Float64.roundRat neg p.1 p.2 with
              | .inf _ => none
              | f => some f

/-- The function `strconv.Atoi` on a 64-bit platform. -/
def atoi (s : List Char) : Option Int :=
  let (neg, t) : Bool × List Char :=
    match s with
    | '+' :: rest => (false, rest)
    | '-' :: rest => (true, rest)
    | _ => (false, s)
  if t.isEmpty ∨ !t.all (fun c => (digitValue 10 c).isSome) then none
  else
    let n : Nat := t.foldl (fun n c => n * 10 + (digitValue 10 c).getD 0) 0
    let v : Int := if neg then -(n : Int) else n
    if -(2 : Int) ^ 63 ≤ v ∧ v < (2 : Int) ^ 63 then some v else none

/-- The function `math.Ldexp(frac, exp)`: `frac * 2^exp`, rounded. -/
def ldexp (frac : Float64) (exp : Int) : Float64 :=
  match frac with
  | .finite neg m e =>
      if m = 0 then frac
      else
        let k := wrapInt64 (exp + ((Float64.bitLen m : Int) - 1 + e))
        if k < -1075 then .finite neg 0 (-1074)
        else if k > 1023 then .inf neg
        else
          let p := Float64.scaled m 1 (-(e + exp))
          Float64.roundRat neg p.1 p.2
  | _ => frac

/-- The method `convertFloat`: `ParseFloat` on the token; a token with a `p`
exponent and no `x` is a decimal mantissa scaled by a power of two. -/
def convertFloat (str : List Char) : Option Float64 :=
  if str.contains 'p' ∧ !(str.contains 'x' || str.contains 'X') then
    match parseFloat (str.takeWhile (· != 'p')), atoi ((str.dropWhile (· != 'p')).drop 1) with
    | some f, some m => some (ldexp f m)
    | _, _ => none
  else parseFloat str

/-- The call `fmt.Sscanf(s, "%f", &x)`: the value stored in `x`, or `none` when the
call fails and stores nothing. -/
def scanFloat (s : String) : Option Float64 :=
  match skipSpace s.data with
  | none => none
  | some [] => none
  | some rest => convertFloat (floatToken rest)

/-- A world whose network answers every request with `resp` and whose decoder
returns `res`; the library functions are those of Go on amd64, where `int64` of an
unrepresentable value is the least 64-bit integer. -/
def fixedWorld (resp : Except String Response) (res : Except String QueryResult)
    (latitude : Float64) : World :=
  { Do := fun _ => resp
    Unmarshal := fun _ => res
    Sscanf := scanFloat
    int64Impl := fun _ => -(2 : Int) ^ 63
    latitude := latitude }

/-! ## Example answers -/

/-- The labels of a series of the metric `j` of user 333. -/
def labels333 : List (String × String) := [("__name__", "j"), ("user_id", "333")]

/-- A world that answers every request with status 200 and a body decoding to
`result`. -/
def answering (result : QueryResult) : World :=
  fixedWorld (.ok ⟨200, "", none⟩) (.ok result) Float64.zero

/-- The float64 constants `1700000000.0` and `1700000001.0`. -/
def ts0 : Float64 := Float64.ofNat 1700000000

/-- See `ts0`. -/
def ts1 : Float64 := Float64.ofNat 1700000001

/-- The float64 constant `1e16`. -/
def ts16 : Float64 := Float64.ofNat 10000000000000000

/-- The world `answering result` on an implementation whose `int64` of an
unrepresentable value is `impl`. -/
def answeringImpl (impl : Float64 → Int) (result : QueryResult) : World :=
  { answering result with int64Impl := impl }

/-! ## Rounding stays within the binary64 format -/

theorem bitLenAux_zero (fuel : Nat) : Float64.bitLenAux fuel 0 = 0 := by
  cases fuel <;> simp [Float64.bitLenAux]

theorem bitLenAux_spec : ∀ (fuel n : Nat), n ≤ fuel → 0 < n →
    0 < Float64.bitLenAux fuel n ∧ 2 ^ (Float64.bitLenAux fuel n - 1) ≤ n ∧
      n < 2 ^ Float64.bitLenAux fuel n
  | 0, n, h, hp => by omega
  | fuel + 1, n, h, hp => by
      have hn : n ≠ 0 := by omega
      simp only [Float64.bitLenAux, hn, if_false]
      by_cases h2 : n / 2 = 0
      · have : n = 1 := by omega
        subst this
        simp [bitLenAux_zero]
      · obtain ⟨ha, hb, hc⟩ := bitLenAux_spec fuel (n / 2) (by omega) (by omega)
        have e : 2 ^ Float64.bitLenAux fuel (n / 2) =
            2 * 2 ^ (Float64.bitLenAux fuel (n / 2) - 1) := by
          rw [← Nat.pow_succ']
          congr 1
          omega
        refine ⟨by omega, ?_, ?_⟩
        · simp only [Nat.add_sub_cancel]
          omega
        · rw [Nat.pow_succ]
          omega

/-- The binary length brackets a positive number between two powers of two. -/
theorem bitLen_spec (n : Nat) (hp : 0 < n) :
    0 < Float64.bitLen n ∧ 2 ^ (Float64.bitLen n - 1) ≤ n ∧ n < 2 ^ Float64.bitLen n :=
  bitLenAux_spec n n (Nat.le_refl n) hp

theorem scaled_den_pos (num den : Nat) (e : Int) (hd : 0 < den) :
    0 < (Float64.scaled num den e).2 := by
  unfold Float64.scaled
  split
  · exact Nat.mul_pos hd (Nat.pos_pow_of_pos _ (by decide))
  · exact hd

/-- Raising the exponent by one halves the quotient. -/
theorem scaled_succ (num den : Nat) (e : Int) :
    (Float64.scaled num den (e + 1)).1 / (Float64.scaled num den (e + 1)).2 =
      (Float64.scaled num den e).1 / (Float64.scaled num den e).2 / 2 := by
  unfold Float64.scaled
  by_cases he : 0 ≤ e
  · obtain ⟨k, rfl⟩ := Int.eq_ofNat_of_zero_le he
    have h1 : (0 : Int) ≤ (k : Int) + 1 := by omega
    have h2 : ((k : Int) + 1).toNat = k + 1 := by omega
    simp only [he, h1, if_true, h2, Int.toNat_ofNat]
    rw [Nat.div_div_eq_div_mul, Nat.pow_succ, Nat.mul_assoc]
  · by_cases h1 : 0 ≤ e + 1
    · have e0 : e = -1 := by omega
      subst e0
      simp [Nat.div_div_eq_div_mul, Nat.mul_comm]
      rw [Nat.mul_div_mul_right _ _ (by decide : 0 < 2)]
    · have h2 : (-e).toNat = (-(e + 1)).toNat + 1 := by omega
      simp only [he, h1, if_false, h2]
      rw [Nat.div_div_eq_div_mul, Nat.pow_succ, ← Nat.mul_assoc,
        Nat.mul_div_mul_right _ _ (by decide : 0 < 2)]

theorem scaled_lt (num den bn bd : Nat) (e : Int) (hn : num < 2 ^ bn)
    (hd : 2 ^ (bd - 1) ≤ den) (hbd : 0 < bd) (he : (bn : Int) - bd - 53 ≤ e) :
    (Float64.scaled num den e).1 / (Float64.scaled num den e).2 < 2 ^ 54 := by
  have hdp : 0 < den := Nat.lt_of_lt_of_le (Nat.pos_pow_of_pos _ (by decide)) hd
  rw [Nat.div_lt_iff_lt_mul (scaled_den_pos num den e hdp)]
  unfold Float64.scaled
  by_cases h0 : 0 ≤ e
  · simp only [h0, if_true]
    have h1 : 2 ^ bn ≤ 2 ^ (54 + ((bd - 1) + e.toNat)) :=
      Nat.pow_le_pow_right (by decide) (by omega)
    have h2 : 2 ^ (54 + ((bd - 1) + e.toNat)) = 2 ^ 54 * (2 ^ (bd - 1) * 2 ^ e.toNat) := by
      rw [Nat.pow_add, Nat.pow_add]
    have h3 : 2 ^ 54 * (2 ^ (bd - 1) * 2 ^ e.toNat) ≤ 2 ^ 54 * (den * 2 ^ e.toNat) :=
      Nat.mul_le_mul_left _ (Nat.mul_le_mul_right _ hd)
    omega
  · simp only [h0, if_false]
    have h1 : 2 ^ (bn + (-e).toNat) ≤ 2 ^ (54 + (bd - 1)) :=
      Nat.pow_le_pow_right (by decide) (by omega)
    have h2 : num * 2 ^ (-e).toNat < 2 ^ bn * 2 ^ (-e).toNat :=
      Nat.mul_lt_mul_of_pos_right hn (Nat.pos_pow_of_pos _ (by decide))
    have h3 : 2 ^ 54 * 2 ^ (bd - 1) ≤ 2 ^ 54 * den := Nat.mul_le_mul_left _ hd
    rw [Nat.pow_add] at h1
    rw [Nat.pow_add] at h1
    omega

theorem scaled_ge (num den bn bd : Nat) (e : Int) (hn : 2 ^ (bn - 1) ≤ num)
    (hd : den < 2 ^ bd) (hbn : 0 < bn) (hdp : 0 < den) (he : e = (bn : Int) - bd - 53) :
    2 ^ 52 ≤ (Float64.scaled num den e).1 / (Float64.scaled num den e).2 := by
  rw [Nat.le_div_iff_mul_le (scaled_den_pos num den e hdp)]
  unfold Float64.scaled
  by_cases h0 : 0 ≤ e
  · simp only [h0, if_true]
    have h1 : 2 ^ (52 + (bd + e.toNat)) ≤ 2 ^ (bn - 1) :=
      Nat.pow_le_pow_right (by decide) (by omega)
    have h2 : 2 ^ 52 * (den * 2 ^ e.toNat) ≤ 2 ^ 52 * (2 ^ bd * 2 ^ e.toNat) :=
      Nat.mul_le_mul_left _ (Nat.mul_le_mul_right _ (Nat.le_of_lt hd))
    rw [Nat.pow_add, Nat.pow_add] at h1
    omega
  · simp only [h0, if_false]
    have h1 : 2 ^ (52 + bd) ≤ 2 ^ ((bn - 1) + (-e).toNat) :=
      Nat.pow_le_pow_right (by decide) (by omega)
    have h2 : 2 ^ (bn - 1) * 2 ^ (-e).toNat ≤ num * 2 ^ (-e).toNat :=
      Nat.mul_le_mul_right _ hn
    have h3 : 2 ^ 52 * den ≤ 2 ^ 52 * 2 ^ bd := Nat.mul_le_mul_left _ (Nat.le_of_lt hd)
    rw [Nat.pow_add] at h1
    rw [Nat.pow_add] at h1
    omega

theorem divRoundEven_bounds (n d : Nat) :
    n / d ≤ Float64.divRoundEven n d ∧ Float64.divRoundEven n d ≤ n / d + 1 := by
  unfold Float64.divRoundEven
  simp only
  split <;> omega

/-- Every result of the rounding is a value of the binary64 format. -/
theorem roundRat_canonical (neg : Bool) (num den : Nat) :
    (Float64.roundRat neg num den).Canonical := by
  unfold Float64.roundRat
  split
  · simp [Float64.Canonical]
  · rename_i h0
    have hnum : 0 < num := by omega
    have hden : 0 < den := by omega
    obtain ⟨hbn, hn1, hn2⟩ := bitLen_spec num hnum
    obtain ⟨hbd, hd1, hd2⟩ := bitLen_spec den hden
    simp only
    generalize hlo : (Float64.bitLen num : Int) - (Float64.bitLen den : Int) - 1 = lo
    generalize he1 : max (lo - 52) (-1074 : Int) = e1
    have he1a : -1074 ≤ e1 := by omega
    have he1b : lo - 52 ≤ e1 := by omega
    have hq1 := scaled_lt num den _ _ e1 hn2 hd1 hbd (by omega)
    have hq1' : -1074 < e1 →
        2 ^ 52 ≤ (Float64.scaled num den e1).1 / (Float64.scaled num den e1).2 := by
      intro h
      exact scaled_ge num den _ _ e1 hn1 hd2 hbn hden (by omega)
    generalize hq : (Float64.scaled num den e1).1 / (Float64.scaled num den e1).2 = q1 at *
    generalize he2 : (if q1 ≥ 2 ^ 53 then e1 + 1 else e1) = e2
    have hq2 : (Float64.scaled num den e2).1 / (Float64.scaled num den e2).2 < 2 ^ 53 ∧
        (-1074 < e2 →
          2 ^ 52 ≤ (Float64.scaled num den e2).1 / (Float64.scaled num den e2).2) ∧
        -1074 ≤ e2 := by
      by_cases hc : q1 ≥ 2 ^ 53
      · simp only [hc, if_true] at he2
        subst he2
        rw [scaled_succ, hq]
        refine ⟨by omega, fun _ => by omega, by omega⟩
      · simp only [hc, if_false] at he2
        subst he2
        rw [hq]
        exact ⟨by omega, hq1', he1a⟩
    obtain ⟨hb1, hb2⟩ := divRoundEven_bounds (Float64.scaled num den e2).1
      (Float64.scaled num den e2).2
    generalize (Float64.scaled num den e2).1 / (Float64.scaled num den e2).2 = q2 at *
    generalize Float64.divRoundEven (Float64.scaled num den e2).1
      (Float64.scaled num den e2).2 = q at *
    obtain ⟨hq2a, hq2b, hq2c⟩ := hq2
    by_cases hq53 : q = 2 ^ 53
    · simp only [hq53, if_true]
      split
      · trivial
      · simp only [Float64.Canonical]
        refine ⟨by decide, by omega, by omega, fun h => absurd h (by decide)⟩
    · simp only [hq53, if_false]
      split
      · trivial
      · simp only [Float64.Canonical]
        refine ⟨by omega, by omega, by omega, fun h => ?_⟩
        by_contra hne
        have := hq2b (by omega)
        omega

/-- The product of two float64 values is a float64 value. -/
theorem mul_canonical (x y : Float64) : (x.mul y).Canonical := by
  cases x <;> cases y <;> simp only [Float64.mul] <;>
    first
      | exact roundRat_canonical _ _ _
      | (split <;> trivial)
      | trivial

/-! ## Lemmas on the fmt verbs -/

theorem digitChar_isDigit (d : Nat) : (digitChar d).isDigit = true := by
  have h : d % 10 < 10 := Nat.mod_lt _ (by decide)
  unfold digitChar
  interval_cases d % 10 <;> decide

theorem natDigits_isDigit : ∀ (fuel n : Nat) (c : Char), c ∈ natDigits fuel n → c.isDigit = true
  | 0, _, c, h => by simp [natDigits] at h
  | fuel + 1, n, c, h => by
      unfold natDigits at h
      split at h
      · simp at h; subst h; exact digitChar_isDigit n
      · rcases List.mem_append.mp h with h | h
        · exact natDigits_isDigit fuel _ c h
        · simp at h; subst h; exact digitChar_isDigit n

theorem natDigits_ne_nil (fuel n : Nat) : natDigits (fuel + 1) n ≠ [] := by
  unfold natDigits
  split <;> simp

theorem natDigits_length_le : ∀ (fuel n : Nat), (natDigits fuel n).length ≤ fuel
  | 0, _ => by simp [natDigits]
  | fuel + 1, n => by
      unfold natDigits
      split
      · simp
      · have := natDigits_length_le fuel (n / 10)
        simp; omega

theorem fracDigits_length (r : Nat) : (fracDigits r).length = 6 := by
  have := natDigits_length_le 6 (r % 10 ^ 6)
  simp only [fracDigits, List.length_append, List.length_replicate]
  omega

theorem fracDigits_isDigit (r : Nat) (c : Char) (h : c ∈ fracDigits r) : c.isDigit = true := by
  simp only [fracDigits, List.mem_append, List.mem_replicate] at h
  rcases h with ⟨_, h⟩ | h
  · subst h; decide
  · exact natDigits_isDigit _ _ c h

theorem takeWhile_digits_point (ip fr : List Char) (h : ∀ c ∈ ip, c.isDigit = true) :
    (ip ++ '.' :: fr).takeWhile Char.isDigit = ip ∧
    (ip ++ '.' :: fr).dropWhile Char.isDigit = '.' :: fr := by
  induction ip with
  | nil => constructor <;> rfl
  | cons c cs ih =>
      have hc := h c (List.mem_cons_self _ _)
      have ih' := ih (fun d hd => h d (List.mem_cons_of_mem _ hd))
      simp [List.takeWhile, List.dropWhile, hc, ih'.1, ih'.2]

theorem isFixedPoint6_of_parts (neg : Bool) (ip fr : List Char) (hne : ip ≠ [])
    (hip : ∀ c ∈ ip, c.isDigit = true) (hlen : fr.length = 6)
    (hfr : ∀ c ∈ fr, c.isDigit = true) :
    isFixedPoint6 ((if neg then "-" else "") ++ String.mk ip ++ "." ++ String.mk fr) = true := by
  have hs : stripMinus ((if neg then "-" else "") ++ String.mk ip ++ "." ++ String.mk fr).data
      = ip ++ '.' :: fr := by
    cases neg
    · cases ip with
      | nil => exact absurd rfl hne
      | cons c cs =>
          have hc := hip c (List.mem_cons_self _ _)
          have : c ≠ '-' := by rintro rfl; exact absurd hc (by decide)
          simp [stripMinus, this]
    · simp [stripMinus]
  have ht := takeWhile_digits_point ip fr hip
  unfold isFixedPoint6
  simp only [hs, ht.1, ht.2]
  cases ip with
  | nil => exact absurd rfl hne
  | cons c cs => simpa [hlen] using hfr

/-- The verb `%f` prints every finite float64 in fixed-point form with six
fractional digits. -/
theorem formatFloat_isFixedPoint6 (x : Float64) (h : x.isFinite = true) :
    isFixedPoint6 (formatFloat x) = true := by
  cases x with
  | finite neg m e =>
      simp only [formatFloat, formatNat]
      exact isFixedPoint6_of_parts neg _ _ (natDigits_ne_nil _ _)
        (natDigits_isDigit _ _) (fracDigits_length _) (fracDigits_isDigit _)
  | inf s => simp [Float64.isFinite] at h
  | nan => simp [Float64.isFinite] at h

/-- The rounded quotient is within half a unit of the exact quotient. -/
theorem divRoundEven_near (n d : Nat) (hd : 0 < d) :
    2 * (Float64.divRoundEven n d * d) ≤ 2 * n + d ∧
    2 * n ≤ 2 * (Float64.divRoundEven n d * d) + d := by
  have h1 := Nat.div_add_mod n d
  have h2 := Nat.mod_lt n hd
  have h3 : d * (n / d) = n / d * d := Nat.mul_comm _ _
  unfold Float64.divRoundEven
  simp only
  split
  · rename_i h
    rw [Nat.add_mul]
    rcases h with h | h <;> constructor <;> omega
  · rename_i h
    have : ¬ 2 * (n % d) > d := fun hh => h (Or.inl hh)
    constructor <;> omega

/-! ## The printed digits spell the number -/

theorem digitChar_toNat (d : Nat) : (digitChar d).toNat - 48 = d % 10 := by
  have h : d % 10 < 10 := Nat.mod_lt _ (by decide)
  unfold digitChar
  generalize d % 10 = k at h
  interval_cases k <;> rfl

theorem digitsValue_append (l : List Char) (c : Char) :
    digitsValue (l ++ [c]) = digitsValue l * 10 + (c.toNat - 48) := by
  simp [digitsValue, List.foldl_append]

theorem natDigits_value : ∀ (fuel n : Nat), n < 10 ^ fuel → digitsValue (natDigits fuel n) = n
  | 0, n, h => by
      have : n = 0 := by simpa using h
      subst this; rfl
  | fuel + 1, n, h => by
      unfold natDigits
      split
      · rename_i h10
        simp only [digitsValue, List.foldl_cons, List.foldl_nil, digitChar_toNat]
        omega
      · have hlt : n / 10 < 10 ^ fuel := by
          rw [Nat.div_lt_iff_lt_mul (by decide)]
          simpa [Nat.pow_succ] using h
        rw [digitsValue_append, natDigits_value fuel (n / 10) hlt, digitChar_toNat]
        omega

/-- The text `formatNat n` spells `n`. -/
theorem formatNat_value (n : Nat) : digitsValue (formatNat n).data = n := by
  have h : n < 10 ^ (n + 1) :=
    Nat.lt_of_lt_of_le (Nat.lt_pow_self (by decide) n) (Nat.pow_le_pow_right (by decide) (by omega))
  exact natDigits_value _ _ h

theorem digitsValue_replicate_zero (k : Nat) (l : List Char) :
    digitsValue (List.replicate k '0' ++ l) = digitsValue l := by
  induction k with
  | zero => rfl
  | succ k ih =>
      have : digitsValue (List.replicate (k + 1) '0' ++ l) =
          digitsValue (List.replicate k '0' ++ l) := by
        simp only [digitsValue, List.replicate_succ, List.cons_append, List.foldl_cons]
        rfl
      rw [this, ih]

/-- The six fractional digits spell the remainder modulo one million. -/
theorem fracDigits_value (r : Nat) : digitsValue (fracDigits r) = r % 10 ^ 6 := by
  unfold fracDigits
  simp only
  rw [digitsValue_replicate_zero]
  exact natDigits_value 6 _ (Nat.mod_lt _ (by decide))

/-- The verb `%f` on a finite value `(-1)^neg * m * 2^e` prints a sign, an integer
part and six fractional digits that together spell `n / 10^6`, where `n` is
`m * 2^e * 10^6` rounded to an integer within half a unit. -/
theorem formatFloat_value (neg : Bool) (m : Nat) (e : Int) :
    ∃ ip fr : List Char,
      formatFloat (.finite neg m e) =
          (if neg then "-" else "") ++ String.mk ip ++ "." ++ String.mk fr ∧
        fr.length = 6 ∧
        (0 ≤ e → digitsValue ip * 10 ^ 6 + digitsValue fr = m * 10 ^ 6 * 2 ^ e.toNat) ∧
        (e < 0 →
          2 * ((digitsValue ip * 10 ^ 6 + digitsValue fr) * 2 ^ (-e).toNat) ≤
              2 * (m * 10 ^ 6) + 2 ^ (-e).toNat ∧
            2 * (m * 10 ^ 6) ≤
              2 * ((digitsValue ip * 10 ^ 6 + digitsValue fr) * 2 ^ (-e).toNat) +
                2 ^ (-e).toNat) := by
  refine ⟨_, _, rfl, fracDigits_length _, ?_, ?_⟩
  · intro he
    have hs : Float64.scaled (m * 10 ^ 6) 1 (-e) = (m * 10 ^ 6 * 2 ^ e.toNat, 1) := by
      unfold Float64.scaled
      by_cases h0 : e = 0
      · subst h0; simp
      · have : ¬ (0 ≤ -e) := by omega
        simp [this]
    have hv := formatNat_value
      (Float64.divRoundEven (m * 10 ^ 6 * 2 ^ e.toNat) 1 / 10 ^ 6)
    simp only [formatNat] at hv
    simp only [hs, hv, fracDigits_value]
    rw [Nat.div_add_mod']
    simp [Float64.divRoundEven, Nat.mod_one]
  · intro he
    have hs : Float64.scaled (m * 10 ^ 6) 1 (-e) = (m * 10 ^ 6, 2 ^ (-e).toNat) := by
      unfold Float64.scaled
      have : 0 ≤ -e := by omega
      simp [this]
    have hv := formatNat_value
      (Float64.divRoundEven (m * 10 ^ 6) (2 ^ (-e).toNat) / 10 ^ 6)
    simp only [formatNat] at hv
    simp only [hs, hv, fracDigits_value]
    rw [Nat.div_add_mod']
    exact divRoundEven_near _ _ (Nat.pos_pow_of_pos _ (by decide))

/-- The format of the write procedure expands to the line-protocol template. -/
theorem writeLine_eq (userID : String) (eventTS collectTS : Int) (longitude latitude : Float64) :
    writeLine userID eventTS collectTS longitude latitude =
      "t_zbs,user_id=" ++ userID ++ ",u_ts=" ++ formatInt eventTS ++ " j=" ++
        formatFloat longitude ++ ",w=" ++ formatFloat latitude ++ "\n" := by
  apply String.ext
  simp [writeLine, Sprintf, sprintfAux, formatVerb]

/-- The format of the error of the write procedure. -/
theorem writeFailed_eq (body : String) :
    (Sprintf "write failed: %s" [.str body]).getD "" = "write failed: " ++ body := by
  apply String.ext
  simp [Sprintf, sprintfAux, formatVerb]

/-- The verb `%d` alone. -/
theorem sprintf_d (n : Int) : (Sprintf "%d" [.int n]).getD "" = formatInt n := by
  apply String.ext
  simp [Sprintf, sprintfAux, formatVerb]

/-- The query expression. -/
theorem sprintf_query (metric userID : String) :
    (Sprintf "%s\x7buser_id=\"%s\"\x7d" [.str metric, .str userID]).getD "" =
      metric ++ "\x7buser_id=\"" ++ userID ++ "\"\x7d" := by
  apply String.ext
  simp [Sprintf, sprintfAux, formatVerb]

/-! ## C1, C2: the writer -/

/-- C1 (as amended): for every user identifier, event timestamp, collection
timestamp and every finite longitude and latitude, the POST body built by
`writeToVictoriaMetrics` is the template with the user identifier, the decimal event
timestamp, and longitude then latitude in fixed-point form with six fractional
digits; the body does not depend on the collection timestamp; and for user "333" and
longitude = latitude = 111.11 it is
`t_zbs,user_id=333,u_ts=<eventTS> j=111.110000,w=111.110000\n`. -/
theorem writeRequest_body_template (userID : String) (eventTS collectTS : Int)
    (longitude latitude : Float64)
    (hj : longitude.isFinite = true) (hw : latitude.isFinite = true) :
    (writeRequest userID eventTS collectTS longitude latitude).Body =
        "t_zbs,user_id=" ++ userID ++ ",u_ts=" ++ formatInt eventTS ++ " j=" ++
          formatFloat longitude ++ ",w=" ++ formatFloat latitude ++ "\n" ∧
      isFixedPoint6 (formatFloat longitude) = true ∧
      isFixedPoint6 (formatFloat latitude) = true ∧
      (∀ collectTS' : Int,
        (writeRequest userID eventTS collectTS' longitude latitude).Body =
          (writeRequest userID eventTS collectTS longitude latitude).Body) ∧
      (writeRequest "333" eventTS collectTS (Float64.ofDecimal 11111 2)
          (Float64.ofDecimal 11111 2)).Body =
        "t_zbs,user_id=333,u_ts=" ++ formatInt eventTS ++ " j=111.110000,w=111.110000\n" := by
  refine ⟨writeLine_eq userID eventTS collectTS longitude latitude, formatFloat_isFixedPoint6 _ hj,
    formatFloat_isFixedPoint6 _ hw, fun c => ?_, ?_⟩
  · show writeLine userID eventTS c longitude latitude =
      writeLine userID eventTS collectTS longitude latitude
    rw [writeLine_eq, writeLine_eq]
  · show writeLine "333" eventTS collectTS _ _ = _
    rw [writeLine_eq]
    have h : formatFloat (Float64.ofDecimal 11111 2) = "111.110000" := by decide
    rw [h]
    apply String.ext
    simp

/-- C1, witness: the record written by `main` at collection time 1700000010000. -/
theorem writeRequest_body_template_witness :
    (writeRequest "333" 1700000000000 1700000010000 (Float64.ofDecimal 11111 2)
        (Float64.ofDecimal 11111 2)).Body =
      "t_zbs,user_id=333,u_ts=" ++ formatInt 1700000000000 ++ " j=111.110000,w=111.110000\n" :=
  (writeRequest_body_template "333" 1700000000000 1700000010000 (Float64.ofDecimal 11111 2)
    (Float64.ofDecimal 11111 2) (by decide) (by decide)).2.2.2.2

/-- C1, counterexample: for a NaN longitude the body has the field `j=NaN`, so it is
not the template filled with two fixed-point decimals of six fractional digits. -/
theorem writeRequest_body_nan :
    (writeRequest "333" 0 0 Float64.nan (Float64.ofDecimal 11111 2)).Body =
        "t_zbs,user_id=333,u_ts=0 j=NaN,w=111.110000\n" ∧
      ¬ ∃ j w : String, isFixedPoint6 j = true ∧ isFixedPoint6 w = true ∧
        (writeRequest "333" 0 0 Float64.nan (Float64.ofDecimal 11111 2)).Body =
          "t_zbs,user_id=333,u_ts=0 j=" ++ j ++ ",w=" ++ w ++ "\n" := by
  have hb : (writeRequest "333" 0 0 Float64.nan (Float64.ofDecimal 11111 2)).Body =
      "t_zbs,user_id=333,u_ts=0 j=NaN,w=111.110000\n" := by decide
  refine ⟨hb, ?_⟩
  rintro ⟨j, w, hj, -, h⟩
  rw [hb] at h
  have h' := congrArg String.data h
  simp only [String.data_append] at h'
  have hd : ("NaN,w=111.110000\n" : String).data = j.data ++ (",w=".data ++ (w.data ++ "\n".data)) := by
    simpa using h'
  cases hjd : j.data with
  | nil => simp [isFixedPoint6, stripMinus, hjd] at hj
  | cons c cs =>
      rw [hjd] at hd
      have hc : c = 'N' := by
        have := congrArg List.head? hd
        simpa using this.symm
      subst hc
      simp [isFixedPoint6, stripMinus, hjd, List.takeWhile] at hj

/-- C2: once the HTTP exchange has completed with a response, `writeToVictoriaMetrics`
returns no error exactly when the status is 204, and for any other status it returns
the error `write failed: ` followed by the text of the response body. -/
theorem write_error_iff_status (w : World) (userID : String) (eventTS collectTS : Int)
    (longitude latitude : Float64) (resp : Response)
    (h : w.Do (writeRequest userID eventTS collectTS longitude latitude) = .ok resp) :
    (writeToVictoriaMetrics w userID eventTS collectTS longitude latitude = none ↔
        resp.StatusCode = 204) ∧
      (resp.StatusCode ≠ 204 →
        writeToVictoriaMetrics w userID eventTS collectTS longitude latitude =
          some ("write failed: " ++ resp.Body)) := by
  unfold writeToVictoriaMetrics
  rw [h]
  simp only [writeFailed_eq]
  by_cases hs : resp.StatusCode = 204 <;> simp [hs]

/-- C2, witness: a response with status 500 and body `internal error`. -/
theorem write_error_iff_status_witness :
    writeToVictoriaMetrics
        (fixedWorld (.ok ⟨500, "internal error", none⟩) (.error "") Float64.zero)
        "333" 0 10000 Float64.zero Float64.zero =
      some ("write failed: " ++ "internal error") :=
  (write_error_iff_status
    (fixedWorld (.ok ⟨500, "internal error", none⟩) (.error "") Float64.zero)
    "333" 0 10000 Float64.zero Float64.zero ⟨500, "internal error", none⟩ rfl).2 (by decide)

/-! ## C3: the query parameters -/

theorem plain_digitChar (d : Nat) : Plain (digitChar d) := by
  have h : d % 10 < 10 := Nat.mod_lt _ (by decide)
  unfold Plain digitChar
  interval_cases d % 10 <;> decide

theorem plain_natDigits : ∀ (fuel n : Nat) (c : Char), c ∈ natDigits fuel n → Plain c
  | 0, _, c, h => by simp [natDigits] at h
  | fuel + 1, n, c, h => by
      unfold natDigits at h
      split at h
      · simp at h; subst h; exact plain_digitChar n
      · rcases List.mem_append.mp h with h | h
        · exact plain_natDigits fuel _ c h
        · simp at h; subst h; exact plain_digitChar n

theorem queryEscape_plain (l : List Char) (h : ∀ c ∈ l, Plain c) :
    QueryEscape (String.mk l) = String.mk l := by
  apply String.ext
  simp only [QueryEscape, stringBytes]
  induction l with
  | nil => rfl
  | cons c cs ih =>
      have hc : Plain c := h c (List.mem_cons_self _ _)
      have ih' := ih (fun d hd => h d (List.mem_cons_of_mem _ hd))
      unfold Plain at hc
      simp only [List.flatMap_cons, List.flatMap_append, hc, ih']
      rfl

/-- A decimal integer passes through `url.QueryEscape` unchanged. -/
theorem queryEscape_formatInt (n : Int) : QueryEscape (formatInt n) = formatInt n := by
  unfold formatInt formatNat
  split
  · have : ("-" ++ String.mk (natDigits (n.natAbs + 1) n.natAbs)) =
        String.mk ('-' :: natDigits (n.natAbs + 1) n.natAbs) := by
      apply String.ext; simp
    rw [this]
    apply queryEscape_plain
    intro c hc
    rcases List.mem_cons.mp hc with h | h
    · subst h; unfold Plain; decide
    · exact plain_natDigits _ _ c h
  · exact queryEscape_plain _ (plain_natDigits _ _)

/-- C3: the request of `queryFromVictoriaMetrics` carries `start` and `end` as the
decimals of the millisecond bounds divided by 1000 with truncation toward zero (a
division that stays in the 64-bit range), and `step` as the decimal of `stepSec`;
the encoded query string lists them unescaped; for 0, 10800000 and 8640000 the
parameters are `start=0`, `end=10800`, `step=8640000`. -/
theorem queryRequest_time_params (userID metric : String) (startMs endMs stepSec : Int) :
    (queryParams userID startMs endMs metric stepSec).Get "start" =
        formatInt (startMs.tdiv 1000) ∧
      (queryParams userID startMs endMs metric stepSec).Get "end" =
        formatInt (endMs.tdiv 1000) ∧
      (queryParams userID startMs endMs metric stepSec).Get "step" = formatInt stepSec ∧
      (queryRequest userID startMs endMs metric stepSec).RawQuery =
        "end=" ++ formatInt (endMs.tdiv 1000) ++
          "&query=" ++ QueryEscape (metric ++ "\x7buser_id=\"" ++ userID ++ "\"\x7d") ++
          "&start=" ++ formatInt (startMs.tdiv 1000) ++
          "&step=" ++ formatInt stepSec ∧
      ((startMs.tdiv 1000).natAbs * 1000 ≤ startMs.natAbs ∧
        startMs.natAbs < (startMs.tdiv 1000).natAbs * 1000 + 1000 ∧
        (0 ≤ startMs → 0 ≤ startMs.tdiv 1000) ∧ (startMs ≤ 0 → startMs.tdiv 1000 ≤ 0)) ∧
      (-(2 : Int) ^ 63 ≤ startMs ∧ startMs < (2 : Int) ^ 63 →
        -(2 : Int) ^ 63 ≤ startMs.tdiv 1000 ∧ startMs.tdiv 1000 < (2 : Int) ^ 63) ∧
      (queryParams userID 0 10800000 metric 8640000).Get "start" = "0" ∧
      (queryParams userID 0 10800000 metric 8640000).Get "end" = "10800" ∧
      (queryParams userID 0 10800000 metric 8640000).Get "step" = "8640000" := by
  have hget : ∀ (a b c : Int),
      (queryParams userID a b metric c).Get "start" = formatInt (a.tdiv 1000) ∧
      (queryParams userID a b metric c).Get "end" = formatInt (b.tdiv 1000) ∧
      (queryParams userID a b metric c).Get "step" = formatInt c := by
    intro a b c
    simp [queryParams, Values.Add, Values.addEntry, Values.empty, Values.Get, sprintf_d,
      List.lookup]
  have htrunc : (startMs.tdiv 1000).natAbs * 1000 ≤ startMs.natAbs ∧
      startMs.natAbs < (startMs.tdiv 1000).natAbs * 1000 + 1000 ∧
      (0 ≤ startMs → 0 ≤ startMs.tdiv 1000) ∧ (startMs ≤ 0 → startMs.tdiv 1000 ≤ 0) := by
    rcases Int.natAbs_eq startMs with h | h
    · have e : startMs.tdiv 1000 = ((startMs.natAbs / 1000 : Nat) : Int) := by
        rw [h]; simp [Int.tdiv]
      rw [e]
      refine ⟨?_, ?_, ?_, ?_⟩ <;> omega
    · have e : startMs.tdiv 1000 = -((startMs.natAbs / 1000 : Nat) : Int) := by
        rw [h, Int.neg_tdiv]; simp [Int.tdiv]
      rw [e]
      refine ⟨?_, ?_, ?_, ?_⟩ <;> omega
  refine ⟨(hget _ _ _).1, (hget _ _ _).2.1, (hget _ _ _).2.2, ?_, htrunc, ?_, ?_, ?_, ?_⟩
  · simp only [queryRequest, queryParams, Values.Encode, Values.sorted, Values.Add,
      Values.addEntry, Values.empty, sprintf_d, sprintf_query]
    have b1 : bytesLE (stringBytes "query") (stringBytes "end") = false := by decide
    have b2 : bytesLE (stringBytes "query") (stringBytes "start") = true := by decide
    have b3 : bytesLE (stringBytes "start") (stringBytes "step") = true := by decide
    have q1 : QueryEscape "end" = "end" := by decide
    have q2 : QueryEscape "query" = "query" := by decide
    have q3 : QueryEscape "start" = "start" := by decide
    have q4 : QueryEscape "step" = "step" := by decide
    simp [Values.addEntry, Values.insertEntry, queryEscape_formatInt, String.intercalate,
      String.intercalate.go, List.foldr, b1, b2, b3, q1, q2, q3, q4, String.append_assoc]
    apply String.ext
    simp
  · rintro ⟨h1, h2⟩
    omega
  · rw [(hget _ _ _).1]; decide
  · rw [(hget _ _ _).2.1]; decide
  · rw [(hget _ _ _).2.2]; decide

/-! ## The extraction loop -/

/-- One iteration of the inner loop appends the samples of the row. -/
theorem appendRow_eq (w : World) (userID : String) (data : List LocationData)
    (v : List JSONValue) : appendRow w userID data v = data ++ rowSamples w userID v := by
  match v with
  | [] => simp [appendRow, rowSamples]
  | [_] => simp [appendRow, rowSamples]
  | _ :: _ :: _ :: _ => simp [appendRow, rowSamples]
  | [a, b] =>
      cases a <;> cases b <;>
        simp [appendRow, rowSamples, assertFloat64, assertString]

/-- The inner loop appends the samples of the rows, in order. -/
theorem foldl_appendRow (w : World) (userID : String) (rows : List (List JSONValue)) :
    ∀ data : List LocationData,
      rows.foldl (appendRow w userID) data = data ++ rows.flatMap (rowSamples w userID) := by
  induction rows with
  | nil => intro data; simp
  | cons v vs ih =>
      intro data
      simp only [List.foldl_cons, ih, appendRow_eq, List.flatMap_cons, List.append_assoc]

/-- One iteration of the outer loop appends the samples of the series. -/
theorem appendSeries_eq (w : World) (data : List LocationData) (series : Series) :
    appendSeries w data series = data ++ seriesSamples w series := by
  simp only [appendSeries, seriesSamples, foldl_appendRow]

/-- The outer loop appends the samples of the series, in order. -/
theorem foldl_appendSeries (w : World) (l : List Series) :
    ∀ data : List LocationData,
      l.foldl (appendSeries w) data = data ++ l.flatMap (seriesSamples w) := by
  induction l with
  | nil => intro data; simp
  | cons s ss ih =>
      intro data
      simp only [List.foldl_cons, ih, appendSeries_eq, List.flatMap_cons, List.append_assoc]

/-- The extraction loops compute the samples of all series, in order. -/
theorem extractData_eq (w : World) (userID status : String) (l : List Series) :
    extractData w userID ⟨status, l⟩ = l.flatMap (seriesSamples w) := by
  simp [extractData, foldl_appendSeries]

/-- The extraction depends on the world only through the library and `latitude`, and
not on the `userID` argument. -/
theorem extractData_congr (w w' : World) (h : SameLibrary w w') (userID userID' : String)
    (result : QueryResult) : extractData w' userID' result = extractData w userID result := by
  obtain ⟨hS, hI, hL⟩ := h
  have hrow : ∀ (u : String) (v : List JSONValue), rowSamples w' u v = rowSamples w u v := by
    intro u v
    match v with
    | [] => simp [rowSamples]
    | [_] => simp [rowSamples]
    | _ :: _ :: _ :: _ => simp [rowSamples]
    | [a, b] => cases a <;> cases b <;> simp [rowSamples, hS, hI, hL]
  have hser : seriesSamples w' = seriesSamples w := by
    funext s
    have e : rowSamples w' (mapIndex s.Metric "user_id") =
        rowSamples w (mapIndex s.Metric "user_id") := funext (hrow _)
    simp only [seriesSamples, e]
  cases result with
  | mk status l => rw [extractData_eq, extractData_eq, hser]

/-- An answered query returns the extracted samples, and no error. -/
theorem query_of_answers (w : World) (userID : String) (startMs endMs : Int)
    (metric : String) (stepSec : Int) (result : QueryResult)
    (h : Answers w (queryRequest userID startMs endMs metric stepSec) result) :
    queryFromVictoriaMetrics w userID startMs endMs metric stepSec =
      .ok (extractData w userID result) := by
  obtain ⟨resp, h1, h2, h3⟩ := h
  simp [queryFromVictoriaMetrics, h1, h2, h3]

/-- A malformed row has no samples. -/
theorem rowSamples_malformed (w : World) (userID : String) (v : List JSONValue)
    (h : malformedRow v = true) : rowSamples w userID v = [] := by
  match v with
  | [] => simp [rowSamples]
  | [_] => simp [rowSamples]
  | _ :: _ :: _ :: _ => simp [rowSamples]
  | [a, b] =>
      cases a <;> cases b <;>
        first
          | (simp [rowSamples]; done)
          | (simp [malformedRow, assertFloat64, assertString] at h)

/-- A row has at most one sample. -/
theorem rowSamples_length_le (w : World) (userID : String) (v : List JSONValue) :
    (rowSamples w userID v).length ≤ 1 := by
  match v with
  | [] => simp [rowSamples]
  | [_] => simp [rowSamples]
  | _ :: _ :: _ :: _ => simp [rowSamples]
  | [a, b] => cases a <;> cases b <;> simp [rowSamples]

theorem seriesSamples_length_le (w : World) (s : Series) :
    (seriesSamples w s).length ≤ s.Values.length := by
  unfold seriesSamples
  induction s.Values with
  | nil => simp
  | cons v vs ih =>
      have := rowSamples_length_le w (mapIndex s.Metric "user_id") v
      simp only [List.flatMap_cons, List.length_append, List.length_cons]
      omega

theorem seriesSamples_userID (w : World) (s : Series) (d : LocationData)
    (h : d ∈ seriesSamples w s) : d.UserID = mapIndex s.Metric "user_id" := by
  unfold seriesSamples at h
  obtain ⟨v, -, hv⟩ := List.mem_flatMap.mp h
  match v with
  | [] => simp [rowSamples] at hv
  | [_] => simp [rowSamples] at hv
  | _ :: _ :: _ :: _ => simp [rowSamples] at hv
  | [a, b] =>
      cases a <;> cases b <;> simp [rowSamples] at hv
      subst hv; rfl

/-! ## C4 to C8 and C10: the reader -/

/-- C4 (as amended): every pair `[t, s]` of a number and a string that scans to `x`,
wherever it stands in the decoded answer, and whose float64 product `t * 1000` has an
integer part that fits in 64 bits, yields exactly one sample at its place, with
longitude `J = x` and `TimeStamp` the integer part of `t * 1000` (rounded toward
zero), a 64-bit integer. -/
theorem query_decodes_pair (w : World) (userID : String) (startMs endMs : Int)
    (metric : String) (stepSec : Int) (status : String) (before after : List Series)
    (labels : List (String × String)) (rows1 rows2 : List (List JSONValue))
    (t : Float64) (s : String) (x : Float64)
    (hx : w.Sscanf s = some x)
    (hfit : (t.mul (Float64.ofNat 1000)).fitsInt64 = true)
    (h : Answers w (queryRequest userID startMs endMs metric stepSec)
      ⟨status, before ++ ⟨labels, rows1 ++ [.number t, .string s] :: rows2⟩ :: after⟩) :
    queryFromVictoriaMetrics w userID startMs endMs metric stepSec =
        .ok (extractData w userID ⟨status, before ++ [⟨labels, rows1⟩]⟩ ++
          [{ UserID := mapIndex labels "user_id"
             J := x
             W := w.latitude
             TimeStamp := (t.mul (Float64.ofNat 1000)).trunc }] ++
          extractData w userID ⟨status, ⟨labels, rows2⟩ :: after⟩) ∧
      -(2 : Int) ^ 63 ≤ (t.mul (Float64.ofNat 1000)).trunc ∧
      (t.mul (Float64.ofNat 1000)).trunc < (2 : Int) ^ 63 := by
  refine ⟨?_, ?_, ?_⟩
  · rw [query_of_answers w userID startMs endMs metric stepSec _ h]
    simp [extractData_eq, seriesSamples, rowSamples, hx, Float64.toInt64, hfit]
  · simp only [Float64.fitsInt64, Bool.and_eq_true, decide_eq_true_eq] at hfit
    exact hfit.1.2
  · simp only [Float64.fitsInt64, Bool.and_eq_true, decide_eq_true_eq] at hfit
    exact hfit.2

/-- C5: a row that has not two elements, or whose first element is not a number, or
whose second element is not a string, adds nothing to the samples collected so far
and raises no error: the query returns the samples extracted from the answer
without that row, which is what it returns when the answer is delivered without
that row. -/
theorem query_skips_malformed_row (w : World) (userID : String) (startMs endMs : Int)
    (metric : String) (stepSec : Int) (status : String) (before after : List Series)
    (labels : List (String × String)) (rows1 rows2 : List (List JSONValue))
    (row : List JSONValue)
    (hrow : malformedRow row = true)
    (h : Answers w (queryRequest userID startMs endMs metric stepSec)
      ⟨status, before ++ ⟨labels, rows1 ++ row :: rows2⟩ :: after⟩) :
    (∀ data : List LocationData,
        appendRow w (mapIndex labels "user_id") data row = data) ∧
      queryFromVictoriaMetrics w userID startMs endMs metric stepSec =
        .ok (extractData w userID
          ⟨status, before ++ ⟨labels, rows1 ++ rows2⟩ :: after⟩) ∧
      (∀ w' : World, SameLibrary w w' →
        Answers w' (queryRequest userID startMs endMs metric stepSec)
          ⟨status, before ++ ⟨labels, rows1 ++ rows2⟩ :: after⟩ →
        queryFromVictoriaMetrics w userID startMs endMs metric stepSec =
          queryFromVictoriaMetrics w' userID startMs endMs metric stepSec) := by
  have hq : queryFromVictoriaMetrics w userID startMs endMs metric stepSec =
      .ok (extractData w userID
        ⟨status, before ++ ⟨labels, rows1 ++ rows2⟩ :: after⟩) := by
    rw [query_of_answers w userID startMs endMs metric stepSec _ h]
    simp [extractData_eq, seriesSamples, rowSamples_malformed w _ row hrow]
  refine ⟨?_, hq, ?_⟩
  · intro data
    rw [appendRow_eq, rowSamples_malformed w _ row hrow, List.append_nil]
  · intro w' hw h'
    rw [hq, query_of_answers w' userID startMs endMs metric stepSec _ h',
      extractData_congr w w' hw userID userID]

/-- C7: when the answer decodes and its result list is empty, the query returns the
empty sample sequence and no error. -/
theorem query_empty_result (w : World) (userID : String) (startMs endMs : Int)
    (metric : String) (stepSec : Int) (status : String)
    (h : Answers w (queryRequest userID startMs endMs metric stepSec) ⟨status, []⟩) :
    queryFromVictoriaMetrics w userID startMs endMs metric stepSec = .ok [] := by
  rw [query_of_answers w userID startMs endMs metric stepSec _ h]
  rfl

/-- C8: the samples returned are the samples of the series, series after series and
row after row, in the order of the answer: the result for the series list `A ++ B` is
the result for `A` followed by the result for `B` (also as returned by queries
answered with `A` and with `B`), and there are at most as many samples as rows. -/
theorem query_keeps_order (w : World) (userID : String) (startMs endMs : Int)
    (metric : String) (stepSec : Int) (status : String) (A B : List Series)
    (h : Answers w (queryRequest userID startMs endMs metric stepSec) ⟨status, A ++ B⟩) :
    queryFromVictoriaMetrics w userID startMs endMs metric stepSec =
        .ok (extractData w userID ⟨status, A⟩ ++ extractData w userID ⟨status, B⟩) ∧
      extractData w userID ⟨status, A ++ B⟩ =
        (A ++ B).flatMap (fun series =>
          series.Values.flatMap (rowSamples w (mapIndex series.Metric "user_id"))) ∧
      (extractData w userID ⟨status, A ++ B⟩).length ≤
        ((A ++ B).map (fun series => series.Values.length)).sum ∧
      (∀ wA wB : World, SameLibrary w wA → SameLibrary w wB →
        Answers wA (queryRequest userID startMs endMs metric stepSec) ⟨status, A⟩ →
        Answers wB (queryRequest userID startMs endMs metric stepSec) ⟨status, B⟩ →
        ∃ dA dB : List LocationData,
          queryFromVictoriaMetrics wA userID startMs endMs metric stepSec = .ok dA ∧
          queryFromVictoriaMetrics wB userID startMs endMs metric stepSec = .ok dB ∧
          queryFromVictoriaMetrics w userID startMs endMs metric stepSec = .ok (dA ++ dB)) := by
  have hq : queryFromVictoriaMetrics w userID startMs endMs metric stepSec =
      .ok (extractData w userID ⟨status, A⟩ ++ extractData w userID ⟨status, B⟩) := by
    rw [query_of_answers w userID startMs endMs metric stepSec _ h]
    simp [extractData_eq]
  refine ⟨hq, ?_, ?_, ?_⟩
  rotate_left 2
  · intro wA wB hA hB hansA hansB
    refine ⟨_, _, query_of_answers wA userID startMs endMs metric stepSec _ hansA,
      query_of_answers wB userID startMs endMs metric stepSec _ hansB, ?_⟩
    rw [hq, extractData_congr w wA hA userID userID, extractData_congr w wB hB userID userID]
  · rw [extractData_eq]; rfl
  · rw [extractData_eq]
    induction (A ++ B) with
    | nil => simp
    | cons s ss ih =>
        have := seriesSamples_length_le w s
        simp only [List.flatMap_cons, List.length_append, List.map_cons, List.sum_cons]
        omega

/-- C10: every sample returned carries as `UserID` the `user_id` label of its series
(the empty string when the series has no such label); the samples are the same
whatever `userID` argument the call was made with, given the same decoded answer. -/
theorem query_userID_from_label (w : World) (userID : String) (startMs endMs : Int)
    (metric : String) (stepSec : Int) (result : QueryResult)
    (h : Answers w (queryRequest userID startMs endMs metric stepSec) result) :
    queryFromVictoriaMetrics w userID startMs endMs metric stepSec =
        .ok (result.Result.flatMap (seriesSamples w)) ∧
      (∀ series ∈ result.Result, ∀ d ∈ seriesSamples w series,
        d.UserID = (series.Metric.lookup "user_id").getD "" ∧
        (series.Metric.lookup "user_id" = none → d.UserID = "")) ∧
      (∀ userID' : String,
        Answers w (queryRequest userID' startMs endMs metric stepSec) result →
        queryFromVictoriaMetrics w userID' startMs endMs metric stepSec =
          queryFromVictoriaMetrics w userID startMs endMs metric stepSec) := by
  refine ⟨?_, ?_, ?_⟩
  · rw [query_of_answers w userID startMs endMs metric stepSec _ h]
    cases result with
    | mk status l => rw [extractData_eq]
  · intro series _ d hd
    have := seriesSamples_userID w series d hd
    refine ⟨this, fun hn => ?_⟩
    rw [this, mapIndex, hn]; rfl
  · intro userID' h'
    rw [query_of_answers w userID startMs endMs metric stepSec _ h,
      query_of_answers w userID' startMs endMs metric stepSec _ h']
    cases result with
    | mk status l => rw [extractData_eq, extractData_eq]

/-! ## C9: main -/

/-- C9: in `main`, for a current time in the 64-bit range, the writer is called
first, with user "333", `eventTS = collectTS - 10000` and `collectTS` the current
time.  When it returns an error, `main` prints it and returns in the state the writer
left: the reader is not called.  When it succeeds, the reader is called once, on the
state after the writer (and the success message), with user "333", `endMs` the
current time, `startMs = endMs - 10800000`, metric `j` and step 8640000; `main` ends
in the state the reader left, by `log.Fatalf` when the reader failed and by returning
otherwise.  With procedures that record their calls, the calls made are the write
alone, respectively the write followed by that one query. -/
theorem main_sequence {σ : Type} (now : Int)
    (println : List String → σ → σ)
    (writer : String → Int → Int → Float64 → Float64 → σ → Option String × σ)
    (reader : String → Int → Int → String → Int → σ →
      Except String (List LocationData) × σ)
    (s : σ)
    (hnow : -(2 : Int) ^ 63 + 10800000 ≤ now ∧ now < (2 : Int) ^ 63) :
    (∀ (err : String) (s1 : σ),
        writer "333" (now - 10000) now (Float64.ofDecimal 11111 2)
            (Float64.ofDecimal 11111 2) (println ["🧪 当前版本: 测试111.11版本"] s) =
          (some err, s1) →
        main now println writer reader s =
          (.returned, println ["❌ 写入失败:", err] s1)) ∧
      (∀ s1 : σ,
        writer "333" (now - 10000) now (Float64.ofDecimal 11111 2)
            (Float64.ofDecimal 11111 2) (println ["🧪 当前版本: 测试111.11版本"] s) =
          (none, s1) →
        (∀ (err : String) (s2 : σ),
          reader "333" (now - 10800000) now "j" 8640000 (println ["✅ 数据写入成功"] s1) =
            (.error err, s2) →
          main now println writer reader s = (.fatal err, s2)) ∧
        (∀ (data : List LocationData) (s2 : σ),
          reader "333" (now - 10800000) now "j" 8640000 (println ["✅ 数据写入成功"] s1) =
            (.ok data, s2) →
          main now println writer reader s =
            (.returned, if data.length = 0 then println ["没有查询到数据。"] s2 else s2))) ∧
      (∀ (wOut : String → Int → Int → Float64 → Float64 → Option String)
          (rOut : String → Int → Int → String → Int → Except String (List LocationData)),
        (∀ err : String,
          wOut "333" (now - 10000) now (Float64.ofDecimal 11111 2)
              (Float64.ofDecimal 11111 2) = some err →
          (main now (fun _ calls => calls) (logWriter wOut) (logReader rOut) []).2 =
            [.write "333" (now - 10000) now (Float64.ofDecimal 11111 2)
              (Float64.ofDecimal 11111 2)]) ∧
        (wOut "333" (now - 10000) now (Float64.ofDecimal 11111 2)
              (Float64.ofDecimal 11111 2) = none →
          (main now (fun _ calls => calls) (logWriter wOut) (logReader rOut) []).2 =
            [.write "333" (now - 10000) now (Float64.ofDecimal 11111 2)
                (Float64.ofDecimal 11111 2),
              .query "333" (now - 10800000) now "j" 8640000])) := by
  obtain ⟨h1, h2⟩ := hnow
  have e1 : wrapInt64 (now - 10000) = now - 10000 := by
    unfold wrapInt64; omega
  have e2 : wrapInt64 (now - 10800 * 1000) = now - 10800000 := by
    unfold wrapInt64; omega
  refine ⟨?_, ?_, ?_⟩
  · intro err s1 hw
    simp only [main, e1, e2, hw]
  · intro s1 hw
    constructor
    · intro err s2 hr
      simp only [main, e1, e2, hw, hr]
    · intro data s2 hr
      simp only [main, e1, e2, hw, hr]
      split <;> rfl
  · intro wOut rOut
    constructor
    · intro err hw
      simp only [main, e1, e2, logWriter, hw, List.nil_append]
    · intro hw
      simp only [main, e1, e2, logWriter, logReader, hw, List.nil_append]
      cases rOut "333" (now - 10800000) now "j" 8640000 with
      | error err => rfl
      | ok data =>
          simp only
          split <;> rfl

/-! ## Instances -/

set_option maxRecDepth 20000 in
/-- C4, witness: the answer with one series holding the single pair
`[1700000000.0, "111.11"]` decodes to exactly one sample, with `TimeStamp`
1700000000000 and longitude 111.11. -/
theorem query_decodes_pair_witness :
    queryFromVictoriaMetrics
        (answering ⟨"success", [⟨labels333, [[.number ts0, .string "111.11"]]⟩]⟩)
        "333" 0 10800000 "j" 8640000 =
      .ok [{ UserID := "333", J := Float64.ofDecimal 11111 2, W := Float64.zero,
             TimeStamp := 1700000000000 }] :=
  (query_decodes_pair
    (answering ⟨"success", [⟨labels333, [[.number ts0, .string "111.11"]]⟩]⟩)
    "333" 0 10800000 "j" 8640000 "success" [] [] labels333 [] [] ts0 "111.11"
    (Float64.ofDecimal 11111 2) (by decide) (by rfl)
    ⟨⟨200, "", none⟩, rfl, rfl, rfl⟩).1.trans (by rfl)

set_option maxRecDepth 20000 in
/-- C4, counterexample: for the pair `[1e16, "1"]` the product `t * 1000` is `1e19`,
whose integer part 10000000000000000000 is no 64-bit integer; the `TimeStamp` of the
sample is what the implementation makes of the conversion, the least 64-bit integer
on amd64 and the greatest on an implementation that saturates, and in neither case
the truncated product. -/
theorem query_timestamp_out_of_range :
    (ts16.mul (Float64.ofNat 1000)).trunc = 10000000000000000000 ∧
      (2 : Int) ^ 63 ≤ (ts16.mul (Float64.ofNat 1000)).trunc ∧
      queryFromVictoriaMetrics
          (answering ⟨"success", [⟨labels333, [[.number ts16, .string "1"]]⟩]⟩)
          "333" 0 10800000 "j" 8640000 =
        .ok [{ UserID := "333", J := Float64.ofNat 1, W := Float64.zero,
               TimeStamp := -9223372036854775808 }] ∧
      queryFromVictoriaMetrics
          (answeringImpl (fun _ => 9223372036854775807)
            ⟨"success", [⟨labels333, [[.number ts16, .string "1"]]⟩]⟩)
          "333" 0 10800000 "j" 8640000 =
        .ok [{ UserID := "333", J := Float64.ofNat 1, W := Float64.zero,
               TimeStamp := 9223372036854775807 }] :=
  ⟨by rfl, by decide, by rfl, by rfl⟩

set_option maxRecDepth 20000 in
/-- C5, witness: a one-element row between two pairs is skipped. -/
theorem query_skips_malformed_row_witness :
    queryFromVictoriaMetrics
        (answering ⟨"success", [⟨labels333,
          [[.number ts0, .string "1.5"], [.string "x"], [.number ts1, .string "2.5"]]⟩]⟩)
        "333" 0 10800000 "j" 8640000 =
      .ok (extractData
        (answering ⟨"success", [⟨labels333,
          [[.number ts0, .string "1.5"], [.string "x"], [.number ts1, .string "2.5"]]⟩]⟩)
        "333"
        ⟨"success", [⟨labels333,
          [[.number ts0, .string "1.5"], [.number ts1, .string "2.5"]]⟩]⟩) :=
  (query_skips_malformed_row
    (answering ⟨"success", [⟨labels333,
      [[.number ts0, .string "1.5"], [.string "x"], [.number ts1, .string "2.5"]]⟩]⟩)
    "333" 0 10800000 "j" 8640000 "success" [] [] labels333
    [[.number ts0, .string "1.5"]] [[.number ts1, .string "2.5"]] [.string "x"]
    (by decide) ⟨⟨200, "", none⟩, rfl, rfl, rfl⟩).2.1

set_option maxRecDepth 20000 in
/-- C6: a pair whose value is the text `abc`, which `Sscanf` rejects, is not
dropped: the answer with the single pair `[1700000000.0, "abc"]` yields one sample,
with longitude 0. -/
theorem query_keeps_unparsable_value :
    scanFloat "abc" = none ∧
      queryFromVictoriaMetrics
          (answering ⟨"success", [⟨labels333, [[.number ts0, .string "abc"]]⟩]⟩)
          "333" 0 10800000 "j" 8640000 =
        .ok [{ UserID := "333", J := Float64.zero, W := Float64.zero,
               TimeStamp := 1700000000000 }] :=
  ⟨by decide, by rfl⟩

/-- C7, witness: an answer with status `success` and no series. -/
theorem query_empty_result_witness :
    queryFromVictoriaMetrics (answering ⟨"success", []⟩) "333" 0 10800000 "j" 8640000 =
      .ok [] :=
  query_empty_result (answering ⟨"success", []⟩) "333" 0 10800000 "j" 8640000 "success"
    ⟨⟨200, "", none⟩, rfl, rfl, rfl⟩

set_option maxRecDepth 20000 in
/-- C8, witness: two series of one pair each; the later time stamp comes first and
stays first. -/
theorem query_keeps_order_witness :
    queryFromVictoriaMetrics
        (answering ⟨"success", [⟨labels333, [[.number ts1, .string "2.5"]]⟩,
          ⟨labels333, [[.number ts0, .string "1.5"]]⟩]⟩)
        "333" 0 10800000 "j" 8640000 =
      .ok [{ UserID := "333", J := Float64.ofDecimal 25 1, W := Float64.zero,
             TimeStamp := 1700000001000 },
           { UserID := "333", J := Float64.ofDecimal 15 1, W := Float64.zero,
             TimeStamp := 1700000000000 }] :=
  (query_keeps_order
    (answering ⟨"success", [⟨labels333, [[.number ts1, .string "2.5"]]⟩,
      ⟨labels333, [[.number ts0, .string "1.5"]]⟩]⟩)
    "333" 0 10800000 "j" 8640000 "success"
    [⟨labels333, [[.number ts1, .string "2.5"]]⟩]
    [⟨labels333, [[.number ts0, .string "1.5"]]⟩]
    ⟨⟨200, "", none⟩, rfl, rfl, rfl⟩).1.trans (by rfl)

/-- C9, witness: a run at time 1700000010000 in which the writer succeeds and the
reader returns no sample: the write, then one query over the three hours before. -/
theorem main_sequence_witness :
    main 1700000010000 (fun _ calls => calls) (logWriter (fun _ _ _ _ _ => none))
        (logReader (fun _ _ _ _ _ => .ok [])) [] =
      (.returned,
        [.write "333" 1700000000000 1700000010000 (Float64.ofDecimal 11111 2)
            (Float64.ofDecimal 11111 2),
          .query "333" 1699989210000 1700000010000 "j" 8640000]) :=
  ((@main_sequence (List Call) 1700000010000 (fun _ calls => calls)
    (logWriter (fun _ _ _ _ _ => none)) (logReader (fun _ _ _ _ _ => .ok [])) []
    (by decide)).2.1 _ rfl).2 [] _ rfl

set_option maxRecDepth 20000 in
/-- C10, witness: a query for user 333 answered with a series labelled `user_id=444`
and a series without that label. -/
theorem query_userID_from_label_witness :
    queryFromVictoriaMetrics
        (answering ⟨"success", [⟨[("user_id", "444")], [[.number ts0, .string "1.5"]]⟩,
          ⟨[("__name__", "j")], [[.number ts1, .string "2.5"]]⟩]⟩)
        "333" 0 10800000 "j" 8640000 =
      .ok [{ UserID := "444", J := Float64.ofDecimal 15 1, W := Float64.zero,
             TimeStamp := 1700000000000 },
           { UserID := "", J := Float64.ofDecimal 25 1, W := Float64.zero,
             TimeStamp := 1700000001000 }] :=
  (query_userID_from_label
    (answering ⟨"success", [⟨[("user_id", "444")], [[.number ts0, .string "1.5"]]⟩,
      ⟨[("__name__", "j")], [[.number ts1, .string "2.5"]]⟩]⟩)
    "333" 0 10800000 "j" 8640000 _ ⟨⟨200, "", none⟩, rfl, rfl, rfl⟩).1.trans (by rfl)

end VictoriaMetricsExample
